import Mathlib

/-!
Verification development for the `cargo-cloudrun` tool.

The repository's core logic (src/main.rs, src/init.rs) is shallowly embedded
below: strings are Lean `String`s, line processing works on `List Char`,
the filesystem effects of `deploy` and `handle_new` are modelled as explicit
state passing / write traces, and subprocess outcomes are explicit inputs.
-/

/- ### Rust string primitives, modelled on `List Char`

`rlines` models Rust's `str::lines()`: lines are split at every LF; a CR
immediately preceding an LF is stripped; a final segment not terminated by
LF is kept as is (CR included); an empty final segment yields no line. -/

/-- Strip one trailing CR from a line, as Rust's `lines` does for CRLF endings. -/
def stripCR (l : List Char) : List Char :=
  if l.getLast? = some '\x0d' then l.dropLast else l

/-- Accumulator worker for `rlines`; `cur` holds the current line reversed. -/
def rlinesAux (cur : List Char) : List Char → List (List Char)
  | [] => if cur.isEmpty then [] else [cur.reverse]
  | c :: rest =>
    if c = '\n' then stripCR cur.reverse :: rlinesAux [] rest
    else rlinesAux (c :: cur) rest

/-- Model of Rust's `str::lines()`. -/
def rlines (s : List Char) : List (List Char) := rlinesAux [] s

/-- Join lines back into one character list, appending LF after every line:
this is exactly what the rewrite loop in `rewrite_package_name` does with
`output.push_str(line); output.push('\n')`. -/
def joinNL (ls : List (List Char)) : List Char :=
  ls.foldr (fun l acc => l ++ '\n' :: acc) []

/-- Model of Rust's `str::trim_start()` (whitespace on ASCII inputs). -/
def trim_start (l : List Char) : List Char := l.dropWhile (fun c => c.isWhitespace)

/-- Model of Rust's `str::starts_with(pat)`. -/
def starts_with (l pat : List Char) : Bool := pat.isPrefixOf l

/-- Model of Rust's `str::ends_with(pat)` on whole strings. -/
def ends_with (s pat : String) : Bool := pat.data.isSuffixOf s.data

/- ### `rewrite_package_name` (src/init.rs) -/

/-- The literal `"[package]"` tested with `starts_with` in the rewrite loop. -/
def headerKey : List Char := ['[', 'p', 'a', 'c', 'k', 'a', 'g', 'e', ']']

/-- The literal `"name ="` tested with `starts_with` in the rewrite loop. -/
def nameKey : List Char := ['n', 'a', 'm', 'e', ' ', '=']

/-- The replacement line the loop emits: `name = "<package_name>"`
(the source's `format!` also appends the LF; here `joinNL` appends it). -/
def nameLine (package_name : List Char) : List Char :=
  nameKey ++ (' ' :: '\x22' :: package_name) ++ ['\x22']

/-- The line-by-line loop of `rewrite_package_name` (src/init.rs, lines
158-182), with `in_package` as the explicit boolean state of the source. -/
def processLines (package_name : List Char) : Bool → List (List Char) → List (List Char)
  | _, [] => []
  | in_package, line :: rest =>
    if starts_with (trim_start line) headerKey then
      line :: processLines package_name true rest
    else if in_package && starts_with (trim_start line) nameKey then
      nameLine package_name :: processLines package_name false rest
    else
      line :: processLines package_name in_package rest

/-- Model of `rewrite_package_name` (src/init.rs): iterate over `lines()`,
replace the first `name =` line after a `[package]` header, write every
line back followed by LF. -/
def rewrite_package_name (toml_input package_name : String) : String :=
  ⟨joinNL (processLines package_name.data false (rlines toml_input.data))⟩

/- ### Event-type resolution and project scaffolding (src/init.rs) -/

/-- Error taxonomy of the scaffolding path. The source reports errors as
boxed strings; the distinct construction sites are modelled as constructors.
`PromptOutOfRange` models the index panic that would occur if the interactive
selector returned an out-of-range index. -/
inductive ScaffoldError
  | UnknownEventType
  | AmbiguousEventType
  | DirectoryExists
  | ManifestExists
  | PromptOutOfRange
deriving DecidableEq, Repr

/-- Model of `map_event_type` (src/init.rs, lines 91-109): filter the catalog
to entries ending with the suffix, then case on the number of matches.
The fixed catalog `ALL_EVENT_PATHS` comes from an external crate, so the
catalog is a parameter here. -/
def map_event_type (catalog : List String) (event_suffix : String) :
    Except ScaffoldError String :=
  match catalog.filter (fun event => ends_with event event_suffix) with
  | [] => .error .UnknownEventType
  | [e] => .ok e
  | _ => .error .AmbiguousEventType

/-- The CLI arguments consumed by `handle_new` (struct `NewArgs` in
src/main.rs). -/
structure NewArgs where
  package_name : String
  http : Bool
  event : Bool
  event_type : Option String
deriving DecidableEq, Repr

/-- The filesystem facts `handle_new` branches on: whether the target
directory exists and whether a manifest exists inside it. -/
structure ScaffoldFS where
  dir_exists : Bool
  manifest_exists : Bool
deriving DecidableEq, Repr

/-- The embedded template texts (the `include_str!` constants of
src/init.rs); their content is external to the core, so they are
parameters of the model. -/
structure Templates where
  event_cargo_toml : String
  event_main_rs : String
  http_cargo_toml : String
  http_main_rs : String
deriving DecidableEq, Repr

/-- The file-creating operations `handle_new` performs, in order. -/
inductive WriteOp
  | create_src_dir
  | write_cargo_toml (content : String)
  | write_main_rs (content : String)
deriving DecidableEq, Repr

/-- The event-type substitution of `write_event_files` (src/init.rs,
lines 128-129). The source panics via `unwrap` when `event_type` contains
no `::`; the model then takes the whole string as the short name, a case no
catalog entry exercises. -/
def substEventType (main_rs event_type : String) : String :=
  let short := (event_type.splitOn "::").getLastD ""
  (main_rs.replace
      "google_cloudevents::google::events::cloud::firestore::v1::DocumentCreatedEvent"
      event_type).replace "DocumentCreatedEvent" short

/-- The `selected_event_type` computation at the top of `handle_new`
(src/init.rs, lines 19-38). The interactive selector is modelled by the
index `promptSel` it would return. -/
def select_event_type (catalog : List String) (promptSel : Nat) (args : NewArgs) :
    Except ScaffoldError (Option String) :=
  if args.event || args.event_type.isSome then
    match args.event_type with
    | some event => (map_event_type catalog event).map some
    | none =>
      match catalog.get? promptSel with
      | some e => .ok (some e)
      | none => .error .PromptOutOfRange
  else
    .ok none

/-- Model of `handle_new` (src/init.rs, lines 13-90): resolve the event type
first, then the directory / manifest existence checks, then create the
directory tree and write the two files. Returns the ordered list of write
operations performed and the error, if any. -/
def handle_new (catalog : List String) (tmpl : Templates) (fs : ScaffoldFS)
    (promptSel : Nat) (args : NewArgs) : List WriteOp × Option ScaffoldError :=
  let is_event_package := args.event || args.event_type.isSome
  match select_event_type catalog promptSel args with
  | .error e => ([], some e)
  | .ok selected_event_type =>
    if fs.dir_exists ∧ args.package_name ≠ "" then
      ([], some .DirectoryExists)
    else if fs.manifest_exists then
      ([], some .ManifestExists)
    else
      let pkg_name := if args.package_name = "" then "axum_serverless" else args.package_name
      if is_event_package then
        match selected_event_type with
        | some event_type =>
          ([.create_src_dir,
            .write_cargo_toml (rewrite_package_name tmpl.event_cargo_toml pkg_name),
            .write_main_rs (substEventType tmpl.event_main_rs event_type)], none)
        | none => ([.create_src_dir], none)
      else
        match args.event_type with
        | some _ =>
          ([.create_src_dir,
            .write_cargo_toml (rewrite_package_name tmpl.event_cargo_toml pkg_name),
            .write_main_rs tmpl.event_main_rs], none)
        | none =>
          ([.create_src_dir,
            .write_cargo_toml (rewrite_package_name tmpl.http_cargo_toml pkg_name),
            .write_main_rs tmpl.http_main_rs], none)

/- ### Workspace resolution (src/main.rs, `find_root_package`) -/

/-- One entry of the `packages` array of `cargo metadata`; paths are
component lists (`same_file_path` in the source compares componentwise). -/
structure Package where
  name : String
  manifest_path : List String
deriving DecidableEq, Repr

/-- The fields of the `cargo metadata` output that `find_root_package`
reads, assumed well formed (the parse-error paths carry no logic). -/
structure Metadata where
  workspace_root : List String
  packages : List Package
deriving DecidableEq, Repr

/-- The manifest path the source computes as `workspace_root.join("Cargo.toml")`. -/
def root_manifest (md : Metadata) : List String := md.workspace_root ++ ["Cargo.toml"]

/-- The manifest directory of a package: `Path::new(manifest_path).parent()`. -/
def manifest_dir (p : Package) : List String := p.manifest_path.dropLast

/-- The fallback-loop test of `find_root_package` (src/main.rs, lines
302-314): `current_dir.strip_prefix(pkg_dir)` succeeds and the remainder is
empty, i.e. the loop skips every package whose directory is not exactly the
current directory. -/
def pkg_contains_cwd (p : Package) (cwd : List String) : Bool :=
  (manifest_dir p).isPrefixOf cwd && (cwd.drop (manifest_dir p).length).isEmpty

/-- Model of `find_root_package` (src/main.rs, lines 237-322): first scan
`packages` for one whose manifest path equals `workspace_root/Cargo.toml`;
otherwise scan for the first package whose directory passes the
current-directory test; otherwise fail. -/
def find_root_package (md : Metadata) (cwd : List String) :
    Except String (List String × String) :=
  match md.packages.find? (fun p => p.manifest_path == root_manifest md) with
  | some p => .ok (md.workspace_root, p.name)
  | none =>
    match md.packages.find? (fun p => pkg_contains_cwd p cwd) with
    | some p => .ok (md.workspace_root, p.name)
    | none => .error "Could not find a suitable package to deploy."

/- ### Deployment orchestration (src/main.rs, `deploy`) -/

/-- The Dockerfile text `deploy` synthesizes (src/main.rs, lines 129-144),
with the package name substituted for both `format!` holes. -/
def dockerfile_content (root_package_name : String) : String :=
  "\n# https://hub.docker.com/_/rust\nFROM rust:1 as build-env\nWORKDIR /app\nCOPY . /app\nRUN cargo build --release\n\nFROM gcr.io/distroless/cc-debian12\nENV PORT 8080\nCOPY --from=build-env /app/target/release/"
    ++ root_package_name ++ " /\nENTRYPOINT [\"/" ++ root_package_name ++ "\"]\n"

/-- The `gcloud` argument vector built by `deploy` (src/main.rs, lines
189-209): the fixed base tokens, then `--` and the extra arguments when
the extra-argument list is non-empty. -/
def deployCmdArgs (root_package_name : String) (extra_args : List String) : List String :=
  let cmd_args := ["run", "deploy", root_package_name, "--source", ".",
    "--allow-unauthenticated", "--use-http2"]
  if !extra_args.isEmpty then
    (if !cmd_args.isEmpty then cmd_args ++ ["--"] else cmd_args) ++ extra_args
  else cmd_args

/-- The workspace-root filesystem facts `deploy` manipulates. -/
structure DeployFS where
  dockerfile : Option String
  gcloudignore : Bool
deriving DecidableEq, Repr

/-- Outcome of spawning the `gcloud` subprocess: it ran and reported
success or failure, or it could not be spawned at all. -/
inductive SpawnOutcome
  | ok (exitSuccess : Bool)
  | spawnFailure
deriving DecidableEq, Repr

/-- How the `deploy` function terminates the process. `panicked` is the
`expect` panic on spawn failure. -/
inductive TermKind
  | exitSuccess
  | exitFailure
  | panicked
deriving DecidableEq, Repr

/-- Trace of one `deploy` call: the filesystem at the moment the subprocess
is invoked (`none` when resolution failed before any side effect), the
final filesystem, and how the process ended. -/
structure DeployResult where
  fsAtSpawn : Option DeployFS
  fsFinal : DeployFS
  term : TermKind
deriving DecidableEq, Repr

/-- Model of `deploy` (src/main.rs, lines 109-230): resolve the workspace,
synthesize the Dockerfile when absent (setting `delete_dockerfile`),
best-effort create `.gcloudignore`, run `gcloud`; on spawn failure `expect`
panics with no cleanup; otherwise `maybe_delete_dockerfile` removes the
synthesized file on both the success and the failure exit path. -/
def deploy (md : Metadata) (cwd : List String) (fs : DeployFS)
    (outcome : SpawnOutcome) : DeployResult :=
  match find_root_package md cwd with
  | .error _ => ⟨none, fs, .exitFailure⟩
  | .ok (_root_dir, root_package_name) =>
    let delete_dockerfile := fs.dockerfile.isNone
    let fs1 :=
      match fs.dockerfile with
      | none => { fs with dockerfile := some (dockerfile_content root_package_name) }
      | some _ => fs
    let fs2 := if fs1.gcloudignore then fs1 else { fs1 with gcloudignore := true }
    match outcome with
    | .spawnFailure => ⟨some fs2, fs2, .panicked⟩
    | .ok exitSuccess =>
      let fs3 := if delete_dockerfile then { fs2 with dockerfile := none } else fs2
      ⟨some fs2, fs3, if exitSuccess then .exitSuccess else .exitFailure⟩

/- ### Concrete instances used by counterexamples and witnesses -/

/-- A metadata instance with a package at the workspace root. -/
def mdRoot : Metadata := ⟨["ws"], [⟨"app", ["ws", "Cargo.toml"]⟩]⟩

/-- A virtual-manifest metadata instance: one package below the root. -/
def mdVirtual : Metadata := ⟨["ws"], [⟨"pkg", ["ws", "pkg", "Cargo.toml"]⟩]⟩

/-- Trivial template texts for concrete scaffolding runs. -/
def tmpl0 : Templates := ⟨"", "", "", ""⟩

/- ### Claims about the deploy command line and the event catalog -/

/-- Claim C7: for every extra-argument list, the deploy command line is the
fixed base token sequence, followed by a `--` separator and the extra
arguments verbatim exactly when that list is non-empty. -/
theorem c7_theorem (root_package_name : String) (extra_args : List String) :
    (extra_args ≠ [] →
      deployCmdArgs root_package_name extra_args
        = ["run", "deploy", root_package_name, "--source", ".",
           "--allow-unauthenticated", "--use-http2", "--"] ++ extra_args)
  ∧ (extra_args = [] →
      deployCmdArgs root_package_name extra_args
        = ["run", "deploy", root_package_name, "--source", ".",
           "--allow-unauthenticated", "--use-http2"]) := by
  constructor
  · intro h
    cases extra_args with
    | nil => exact absurd rfl h
    | cons a t => simp [deployCmdArgs]
  · intro h
    subst h
    simp [deployCmdArgs]

/-- Witness for C7 at a concrete non-empty extra-argument list. -/
theorem c7_witness :
    (["--region", "us-east1"] : List String) ≠ []
  ∧ deployCmdArgs "svc" ["--region", "us-east1"]
      = ["run", "deploy", "svc", "--source", ".",
         "--allow-unauthenticated", "--use-http2", "--", "--region", "us-east1"] :=
  ⟨by decide, ( c7_theorem "svc" ["--region", "us-east1"]).1 (by decide)⟩

/-- Claim C5: for every non-empty suffix, event-type resolution returns the
unique catalog entry ending with the suffix when exactly one matches, fails
with the unknown-event-type error when none matches, and fails with the
ambiguous-event-type error when two or more match. -/
theorem c5_theorem (catalog : List String) (suffix : String) (_hs : suffix ≠ "") :
    (catalog.countP (fun e => ends_with e suffix) = 0 →
      map_event_type catalog suffix = .error .UnknownEventType)
  ∧ (∀ e, catalog.countP (fun e => ends_with e suffix) = 1 →
      e ∈ catalog → ends_with e suffix = true →
      map_event_type catalog suffix = .ok e)
  ∧ (2 ≤ catalog.countP (fun e => ends_with e suffix) →
      map_event_type catalog suffix = .error .AmbiguousEventType) := by
  refine ⟨?_, ?_, ?_⟩
  · intro h0
    rw [List.countP_eq_length_filter, List.length_eq_zero] at h0
    simp [map_event_type, h0]
  · intro e h1 he hfe
    rw [List.countP_eq_length_filter, List.length_eq_one] at h1
    obtain ⟨a, ha⟩ := h1
    have hmem : e ∈ catalog.filter (fun e => ends_with e suffix) :=
      List.mem_filter.mpr ⟨he, hfe⟩
    rw [ha, List.mem_singleton] at hmem
    subst hmem
    simp [map_event_type, ha]
  · intro h2
    rw [List.countP_eq_length_filter] at h2
    rcases hf : catalog.filter (fun e => ends_with e suffix) with _ | ⟨a, _ | ⟨b, t⟩⟩
    · rw [hf] at h2; simp at h2
    · rw [hf] at h2; simp at h2
    · simp [map_event_type, hf]

/-- Witness for C5 at a two-entry catalog and a suffix matching exactly one. -/
theorem c5_witness :
    ("Created" : String) ≠ ""
  ∧ map_event_type ["a.b.UserCreated", "a.b.UserDeleted"] "Created"
      = .ok "a.b.UserCreated" :=
  ⟨by decide,
   ( c5_theorem ["a.b.UserCreated", "a.b.UserDeleted"] "Created" (by decide)).2.1
     "a.b.UserCreated" (by decide) (by decide) (by decide)⟩

/-- Every string ends with the empty suffix, so the empty-suffix filter keeps
the whole catalog. -/
theorem filter_ends_with_empty (catalog : List String) :
    catalog.filter (fun e => ends_with e "") = catalog :=
  List.filter_eq_self.mpr (fun _ _ => by simp [ends_with, List.isSuffixOf])

/-- Claim C10: with the empty suffix, resolution is ambiguous as soon as the
catalog has two entries, and reports an unknown event type exactly when the
catalog is empty. -/
theorem c10_theorem (catalog : List String) :
    (2 ≤ catalog.length →
      map_event_type catalog "" = .error .AmbiguousEventType)
  ∧ (map_event_type catalog "" = .error .UnknownEventType ↔ catalog = []) := by
  rcases catalog with _ | ⟨a, _ | ⟨b, t⟩⟩
  · exact ⟨by intro h; simp at h, by simp [map_event_type]⟩
  · refine ⟨by intro h; simp at h, ?_⟩
    rw [show map_event_type [a] "" = .ok a from by
      simp [map_event_type, filter_ends_with_empty]]
    simp
  · refine ⟨fun _ => ?_, ?_⟩
    · have hf := filter_ends_with_empty (a :: b :: t)
      simp [map_event_type, hf]
    · have hf := filter_ends_with_empty (a :: b :: t)
      rw [show map_event_type (a :: b :: t) "" = .error .AmbiguousEventType from by
        simp [map_event_type, hf]]
      simp

/-- Witness for C10 at a concrete two-entry catalog. -/
theorem c10_witness :
    2 ≤ (["x", "y"] : List String).length
  ∧ map_event_type ["x", "y"] "" = .error .AmbiguousEventType :=
  ⟨by decide, ( c10_theorem ["x", "y"]).1 (by decide)⟩

/- ### Claims about the Dockerfile lifecycle in `deploy` -/

/-- Counterexample for claim C1: with no pre-existing Dockerfile and a
subprocess spawn failure, `deploy` panics via `expect` before
`maybe_delete_dockerfile` runs, so the synthesized Dockerfile is not
deleted on that outcome path. -/
theorem c1_counterexample :
    (deploy mdRoot ["ws"] ⟨none, false⟩ .spawnFailure).fsFinal.dockerfile
      = some (dockerfile_content "app")
  ∧ (deploy mdRoot ["ws"] ⟨none, false⟩ .spawnFailure).term = .panicked := by
  constructor <;> rfl

/-- Claim C1 as amended: when no Dockerfile exists beforehand and workspace
resolution succeeds, `deploy` synthesizes one (it is present at the moment
the subprocess is invoked, on every outcome path) and deletes it before
exit on both subprocess-completed paths (success and non-zero exit); on a
subprocess spawn failure the process panics before the cleanup runs and the
synthesized file remains. -/
theorem c1_theorem (md : Metadata) (cwd : List String) (fs : DeployFS)
    (root_dir : List String) (root_package_name : String)
    (hres : find_root_package md cwd = .ok (root_dir, root_package_name))
    (h0 : fs.dockerfile = none) :
    (∀ outcome, ((deploy md cwd fs outcome).fsAtSpawn.map DeployFS.dockerfile)
        = some (some (dockerfile_content root_package_name)))
  ∧ (∀ b, (deploy md cwd fs (.ok b)).fsFinal.dockerfile = none)
  ∧ ((deploy md cwd fs .spawnFailure).fsFinal.dockerfile
        = some (dockerfile_content root_package_name)
     ∧ (deploy md cwd fs .spawnFailure).term = .panicked) := by
  refine ⟨?_, ?_, ?_, ?_⟩
  · intro outcome
    cases outcome <;> (simp [deploy, hres, h0]; try (split <;> simp))
  · intro b
    simp [deploy, hres, h0]
  · simp [deploy, hres, h0]
    try (split <;> simp)
  · simp [deploy, hres, h0]

/-- Witness for C1 as amended, at the concrete root-package metadata. -/
theorem c1_witness :
    find_root_package mdRoot ["ws"] = .ok (["ws"], "app")
  ∧ (DeployFS.mk none false).dockerfile = none
  ∧ (∀ b, (deploy mdRoot ["ws"] ⟨none, false⟩ (.ok b)).fsFinal.dockerfile = none) :=
  ⟨by rfl, by rfl,
   ( c1_theorem mdRoot ["ws"] ⟨none, false⟩ ["ws"] "app" (by rfl) (by rfl)).2.1⟩

/-- Claim C2: a pre-existing Dockerfile is never modified or deleted by
`deploy`, on every outcome path (resolution failure, subprocess success,
subprocess non-zero exit, and spawn failure). -/
theorem c2_theorem (md : Metadata) (cwd : List String) (fs : DeployFS)
    (outcome : SpawnOutcome) (content : String)
    (h : fs.dockerfile = some content) :
    (deploy md cwd fs outcome).fsFinal.dockerfile = some content := by
  unfold deploy
  rcases hf : find_root_package md cwd with e | ⟨root, name⟩
  · simpa using h
  · cases outcome <;> (simp [h]; try (split <;> simp [h]))

/-- Witness for C2 at a concrete pre-existing Dockerfile. -/
theorem c2_witness :
    (DeployFS.mk (some "FROM scratch") true).dockerfile = some "FROM scratch"
  ∧ (deploy mdRoot ["ws"] ⟨some "FROM scratch", true⟩ (.ok false)).fsFinal.dockerfile
      = some "FROM scratch" :=
  ⟨by decide,
   c2_theorem mdRoot ["ws"] ⟨some "FROM scratch", true⟩ (.ok false) "FROM scratch" (by decide)⟩

/- ### Claims about workspace resolution -/

/-- The fallback-loop test passes exactly when the current directory equals
the package's manifest directory: the remainder left by `strip_prefix` must
be empty, so a strict subdirectory of the package never passes. -/
theorem pkg_contains_cwd_iff (p : Package) (cwd : List String) :
    pkg_contains_cwd p cwd = true ↔ manifest_dir p = cwd := by
  unfold pkg_contains_cwd
  rw [Bool.and_eq_true, List.isPrefixOf_iff_prefix, List.isEmpty_iff]
  constructor
  · rintro ⟨hpre, hdrop⟩
    refine hpre.eq_of_length ?_
    have h1 := hpre.length_le
    have h2 : cwd.length - (manifest_dir p).length = 0 := by
      simpa using congrArg List.length hdrop
    omega
  · rintro rfl
    exact ⟨List.prefix_refl _, by simp⟩

/-- Counterexample for claim C4: in a virtual-manifest workspace, resolution
from the package's own directory succeeds, but from a subdirectory of that
package it fails, so the two invocations do not return the same result. -/
theorem c4_counterexample :
    find_root_package mdVirtual ["ws", "pkg"] = .ok (["ws"], "pkg")
  ∧ find_root_package mdVirtual ["ws", "pkg", "src"]
      = .error "Could not find a suitable package to deploy." := by
  constructor <;> rfl

/-- Claim C4 as amended: when some package's manifest sits at the workspace
root, resolution ignores the current directory entirely, so any two
invocation directories give the same result; in the virtual-manifest
fallback the result does depend on the current directory: it succeeds
exactly when the current directory equals some package's manifest
directory. -/
theorem c4_theorem :
    (∀ (md : Metadata) (cwd cwd' : List String),
      (∃ p ∈ md.packages, p.manifest_path = root_manifest md) →
      find_root_package md cwd = find_root_package md cwd')
  ∧ (∀ (md : Metadata) (cwd : List String),
      (∀ p ∈ md.packages, p.manifest_path ≠ root_manifest md) →
      ((find_root_package md cwd).isOk = true ↔
        ∃ p ∈ md.packages, manifest_dir p = cwd)) := by
  constructor
  · intro md cwd cwd' h
    have hsome : (md.packages.find? (fun p => p.manifest_path == root_manifest md)).isSome := by
      rw [List.find?_isSome]
      obtain ⟨p, hp, he⟩ := h
      exact ⟨p, hp, by simpa using he⟩
    obtain ⟨q, hq⟩ := Option.isSome_iff_exists.mp hsome
    unfold find_root_package
    rw [hq]
  · intro md cwd h
    have hnone : md.packages.find? (fun p => p.manifest_path == root_manifest md) = none := by
      rw [List.find?_eq_none]
      intro p hp
      simpa using h p hp
    unfold find_root_package
    rw [hnone]
    rcases hq : md.packages.find? (fun p => pkg_contains_cwd p cwd) with _ | q
    · rw [List.find?_eq_none] at hq
      constructor
      · intro hfalse
        simp [Except.isOk, Except.toBool] at hfalse
      · rintro ⟨p, hp, hdir⟩
        exact absurd ((pkg_contains_cwd_iff p cwd).mpr hdir) (by simpa using hq p hp)
    · constructor
      · intro _
        have hcq : pkg_contains_cwd q cwd = true := by
          have := List.find?_some hq
          simpa using this
        exact ⟨q, List.mem_of_find?_eq_some hq, (pkg_contains_cwd_iff q cwd).mp hcq⟩
      · intro _
        rfl

/-- Witness for C4 as amended: at the root-package metadata, invocation from
the root and from a subdirectory resolve identically. -/
theorem c4_witness :
    (∃ p ∈ mdRoot.packages, p.manifest_path = root_manifest mdRoot)
  ∧ find_root_package mdRoot ["ws"] = find_root_package mdRoot ["ws", "sub"] :=
  ⟨⟨⟨"app", ["ws", "Cargo.toml"]⟩, by decide, by decide⟩,
   c4_theorem.1 mdRoot ["ws"] ["ws", "sub"]
     ⟨⟨"app", ["ws", "Cargo.toml"]⟩, by decide, by decide⟩⟩

/- ### Claims about project scaffolding -/

/-- Counterexample for claim C8: when the target directory exists with a
non-empty package name and a manifest also exists inside it, `handle_new`
fails with the directory-exists error, not the manifest-exists error the
claim also demands for that input, so the two "whenever" clauses cannot
both hold as stated. -/
theorem c8_counterexample :
    handle_new [] tmpl0 ⟨true, true⟩ 0 ⟨"foo", true, false, none⟩
      = ([], some .DirectoryExists)
  ∧ ScaffoldError.DirectoryExists ≠ ScaffoldError.ManifestExists := by
  constructor
  · rfl
  · decide

/-- Claim C8 as amended: provided the event-type selection step (which runs
first) does not fail, `handle_new` fails with the directory-exists error
whenever the target directory exists and the package name is non-empty;
it fails with the manifest-exists error whenever a manifest exists inside
the target directory and the directory check did not already fire; in both
failure cases no write operation is performed. -/
theorem c8_theorem (catalog : List String) (tmpl : Templates) (fs : ScaffoldFS)
    (promptSel : Nat) (args : NewArgs) (sel : Option String)
    (hsel : select_event_type catalog promptSel args = .ok sel) :
    (fs.dir_exists = true → args.package_name ≠ "" →
      handle_new catalog tmpl fs promptSel args = ([], some .DirectoryExists))
  ∧ (fs.manifest_exists = true → ¬(fs.dir_exists = true ∧ args.package_name ≠ "") →
      handle_new catalog tmpl fs promptSel args = ([], some .ManifestExists)) := by
  constructor
  · intro hd hn
    simp [handle_new, hsel, hd, hn]
  · intro hm hnd
    simp [handle_new, hsel, hm, hnd]

/-- Witness for C8 as amended: a concrete HTTP-handler run into an existing
directory fails with the directory-exists error and performs no writes. -/
theorem c8_witness :
    select_event_type [] 0 ⟨"foo", true, false, none⟩ = .ok none
  ∧ handle_new [] tmpl0 ⟨true, false⟩ 0 ⟨"foo", true, false, none⟩
      = ([], some .DirectoryExists) :=
  ⟨by rfl,
   ( c8_theorem [] tmpl0 ⟨true, false⟩ 0 ⟨"foo", true, false, none⟩ none (by rfl)).1
     (by rfl) (by decide)⟩

/-- Claim C9: with an empty package name (the init subcommand's fallback when
the current directory name cannot be determined), the directory-exists check
is skipped — the outcome is the same whether or not the target directory
exists — and the manifest is written rewritten with the fallback package
name "axum_serverless" rather than the empty string. -/
theorem c9_theorem (catalog : List String) (tmpl : Templates) (promptSel : Nat)
    (dirExists : Bool) :
    handle_new catalog tmpl ⟨dirExists, false⟩ promptSel ⟨"", true, false, none⟩
      = ([.create_src_dir,
          .write_cargo_toml (rewrite_package_name tmpl.http_cargo_toml "axum_serverless"),
          .write_main_rs tmpl.http_main_rs], none) := by
  unfold handle_new select_event_type
  simp

/-- Claim C3 (code behaviour at the failing input): on a manifest whose
`[package]` header recurs, the rewrite loop re-arms and replaces a `name =`
line after the second header as well, so two lines are replaced rather than
exactly one. -/
theorem c3_theorem :
    rewrite_package_name "[package]\nname = \"a\"\n[package]\nname = \"b\"\n" "pkg"
      = "[package]\nname = \"pkg\"\n[package]\nname = \"pkg\"\n" := by
  decide

/- ### Claim C6: idempotence of the manifest rewrite -/

/-- Counterexample for claim C6: a manifest whose first `[package]` section
already names the package `pkg`, but with the name line indented, is not
returned unchanged — the rewrite emits the canonical unindented line. -/
theorem c6_counterexample :
    rewrite_package_name "[package]\n  name = \"pkg\"\n" "pkg"
      = "[package]\nname = \"pkg\"\n"
  ∧ rewrite_package_name "[package]\n  name = \"pkg\"\n" "pkg"
      ≠ "[package]\n  name = \"pkg\"\n" := by
  constructor <;> decide

/-- Characters of a CR-stripped line come from the line. -/
theorem mem_stripCR {c : Char} {l : List Char} (h : c ∈ stripCR l) : c ∈ l := by
  unfold stripCR at h
  split at h
  · exact (List.dropLast_sublist _).subset h
  · exact h

/-- No line produced by the line splitter contains a line feed. -/
theorem rlinesAux_no_nl : ∀ (s cur : List Char), '\n' ∉ cur →
    ∀ l ∈ rlinesAux cur s, '\n' ∉ l := by
  intro s
  induction s with
  | nil =>
    intro cur hcur l hl
    unfold rlinesAux at hl
    split at hl
    · simp at hl
    · rw [List.mem_singleton] at hl
      subst hl
      simpa using hcur
  | cons c rest ih =>
    intro cur hcur l hl
    unfold rlinesAux at hl
    by_cases hc : c = '\n'
    · rw [if_pos hc] at hl
      rcases List.mem_cons.mp hl with hl | hl
      · subst hl
        intro hmem
        exact hcur (by simpa using mem_stripCR hmem)
      · exact ih [] (by simp) l hl
    · rw [if_neg hc] at hl
      refine ih (c :: cur) ?_ l hl
      intro hm
      rcases List.mem_cons.mp hm with hm | hm
      · exact hc hm.symm
      · exact hcur hm

/-- Every character of a produced line comes from the accumulator or the
remaining input. -/
theorem rlinesAux_chars : ∀ (s cur : List Char), ∀ l ∈ rlinesAux cur s,
    ∀ c ∈ l, c ∈ cur ∨ c ∈ s := by
  intro s
  induction s with
  | nil =>
    intro cur l hl c hc
    unfold rlinesAux at hl
    split at hl
    · simp at hl
    · rw [List.mem_singleton] at hl
      subst hl
      exact Or.inl (by simpa using hc)
  | cons c0 rest ih =>
    intro cur l hl c hc
    unfold rlinesAux at hl
    by_cases hc0 : c0 = '\n'
    · rw [if_pos hc0] at hl
      rcases List.mem_cons.mp hl with hl | hl
      · subst hl
        exact Or.inl (by simpa using mem_stripCR hc)
      · rcases ih [] l hl c hc with h | h
        · simp at h
        · exact Or.inr (List.mem_cons_of_mem c0 h)
    · rw [if_neg hc0] at hl
      rcases ih (c0 :: cur) l hl c hc with h | h
      · rcases List.mem_cons.mp h with h | h
        · exact Or.inr (h ▸ List.mem_cons_self c0 rest)
        · exact Or.inl h
      · exact Or.inr (List.mem_cons_of_mem c0 h)

/-- A character absent from a list is not its last element. -/
theorem getLast?_ne_of_not_mem {l : List Char} {a : Char} (h : a ∉ l) :
    l.getLast? ≠ some a := by
  intro hl
  have hmem : a ∈ l.getLast? := by rw [hl]; rfl
  obtain ⟨hne, heq⟩ := List.mem_getLast?_eq_getLast hmem
  exact h (by rw [heq]; exact List.getLast_mem hne)

/-- One step of the splitter on a character other than LF pushes it onto the
accumulator. -/
theorem rlinesAux_cons_ne {c : Char} (hc : ¬(c = '\n')) (cur s : List Char) :
    rlinesAux cur (c :: s) = rlinesAux (c :: cur) s := by
  simp only [rlinesAux]
  rw [if_neg hc]

/-- Splitting after appending one LF-free line peels off exactly that line. -/
theorem rlinesAux_append : ∀ (l : List Char), '\n' ∉ l → ∀ (cur rest : List Char),
    rlinesAux cur (l ++ '\n' :: rest)
      = stripCR (cur.reverse ++ l) :: rlinesAux [] rest := by
  intro l
  induction l with
  | nil =>
    intro _ cur rest
    simp [rlinesAux]
  | cons c l' ih =>
    intro h cur rest
    have hc : ¬(c = '\n') := fun he => h (by rw [he]; exact List.mem_cons_self _ _)
    have h' : '\n' ∉ l' := fun hm => h (List.mem_cons_of_mem c hm)
    rw [List.cons_append, rlinesAux_cons_ne hc, ih h' (c :: cur) rest]
    congr 2
    simp

/-- A line not ending in CR is unchanged by CR stripping. -/
theorem stripCR_eq_self {l : List Char} (h : l.getLast? ≠ some '\x0d') :
    stripCR l = l := by
  unfold stripCR
  rw [if_neg h]

/-- Round trip: joining LF-free, non-CR-terminated lines with LF and
splitting again restores the lines. -/
theorem rlines_joinNL : ∀ (O : List (List Char)),
    (∀ l ∈ O, '\n' ∉ l ∧ l.getLast? ≠ some '\x0d') →
    rlines (joinNL O) = O := by
  intro O
  induction O with
  | nil => intro _; rfl
  | cons l O' ih =>
    intro h
    have hl := h l (List.mem_cons_self _ _)
    have h' : ∀ a ∈ O', '\n' ∉ a ∧ a.getLast? ≠ some '\x0d' :=
      fun a ha => h a (List.mem_cons_of_mem _ ha)
    have hjoin : joinNL (l :: O') = l ++ '\n' :: joinNL O' := rfl
    unfold rlines
    rw [hjoin, rlinesAux_append l hl.1 [] (joinNL O')]
    rw [List.reverse_nil, List.nil_append, stripCR_eq_self hl.2]
    exact congrArg (List.cons l) (ih h')

/-- The canonical replacement line has no leading whitespace. -/
theorem trim_start_nameLine (package_name : List Char) :
    trim_start (nameLine package_name) = nameLine package_name := by
  simp [trim_start, nameLine, nameKey, List.dropWhile_cons]

/-- The canonical replacement line again matches the `name =` test. -/
theorem starts_with_nameLine_nameKey (package_name : List Char) :
    starts_with (nameLine package_name) nameKey = true := by
  have hsplit : nameLine package_name
      = nameKey ++ ((' ' :: '\x22' :: package_name) ++ ['\x22']) := by
    unfold nameLine
    rw [List.append_assoc]
  rw [starts_with, hsplit]
  simp [List.isPrefixOf_iff_prefix]

/-- The canonical replacement line is not a `[package]` header. -/
theorem starts_with_nameLine_headerKey (package_name : List Char) :
    starts_with (nameLine package_name) headerKey = false := by
  simp [starts_with, nameLine, nameKey, headerKey, List.isPrefixOf]

/-- Every output line of the rewrite loop is an input line or the canonical
replacement line. -/
theorem processLines_mem (package_name : List Char) : ∀ (L : List (List Char)) (b : Bool),
    ∀ l ∈ processLines package_name b L, l ∈ L ∨ l = nameLine package_name := by
  intro L
  induction L with
  | nil =>
    intro b l hl
    simp [processLines] at hl
  | cons line rest ih =>
    intro b l hl
    simp only [processLines] at hl
    split at hl
    · rcases List.mem_cons.mp hl with hl | hl
      · exact Or.inl (hl ▸ List.mem_cons_self _ _)
      · rcases ih true l hl with hm | hm
        · exact Or.inl (List.mem_cons_of_mem _ hm)
        · exact Or.inr hm
    · split at hl
      · rcases List.mem_cons.mp hl with hl | hl
        · exact Or.inr hl
        · rcases ih false l hl with hm | hm
          · exact Or.inl (List.mem_cons_of_mem _ hm)
          · exact Or.inr hm
      · rcases List.mem_cons.mp hl with hl | hl
        · exact Or.inl (hl ▸ List.mem_cons_self _ _)
        · rcases ih b l hl with hm | hm
          · exact Or.inl (List.mem_cons_of_mem _ hm)
          · exact Or.inr hm

/-- The rewrite loop is idempotent on the line level, from any starting
state: output lines keep their classification (headers stay headers, the
canonical replacement line is again a `name =` line and not a header), so a
second pass replaces the same positions with the same text. -/
theorem processLines_idem (package_name : List Char) : ∀ (L : List (List Char)) (b : Bool),
    processLines package_name b (processLines package_name b L)
      = processLines package_name b L := by
  intro L
  induction L with
  | nil => intro b; rfl
  | cons line rest ih =>
    intro b
    by_cases hh : starts_with (trim_start line) headerKey = true
    · rw [show processLines package_name b (line :: rest)
            = line :: processLines package_name true rest from by
        simp only [processLines]; rw [if_pos hh]]
      rw [show processLines package_name b (line :: processLines package_name true rest)
            = line :: processLines package_name true (processLines package_name true rest) from by
        simp only [processLines]; rw [if_pos hh]]
      rw [ih true]
    · by_cases hb : (b && starts_with (trim_start line) nameKey) = true
      · rw [show processLines package_name b (line :: rest)
              = nameLine package_name :: processLines package_name false rest from by
          simp only [processLines]; rw [if_neg hh, if_pos hb]]
        have hb' : b = true := (Bool.and_eq_true _ _).mp hb |>.1
        rw [show processLines package_name b
                (nameLine package_name :: processLines package_name false rest)
              = nameLine package_name
                :: processLines package_name false (processLines package_name false rest) from by
          simp only [processLines]
          rw [trim_start_nameLine]
          rw [if_neg (by rw [starts_with_nameLine_headerKey]; exact Bool.false_ne_true)]
          rw [if_pos (by rw [hb', starts_with_nameLine_nameKey]; rfl)]]
        rw [ih false]
      · rw [show processLines package_name b (line :: rest)
              = line :: processLines package_name b rest from by
          simp only [processLines]; rw [if_neg hh, if_neg hb]]
        rw [show processLines package_name b (line :: processLines package_name b rest)
              = line :: processLines package_name b (processLines package_name b rest) from by
          simp only [processLines]; rw [if_neg hh, if_neg hb]]
        rw [ih b]

/-- The canonical replacement line contains no line feed when the package
name contains none. -/
theorem nameLine_no_nl {package_name : List Char} (h : '\n' ∉ package_name) :
    '\n' ∉ nameLine package_name := by
  intro hn
  simp [nameLine, nameKey] at hn
  exact h hn

/-- The canonical replacement line ends with the closing quote. -/
theorem nameLine_getLast (package_name : List Char) :
    (nameLine package_name).getLast? = some '\x22' := by
  unfold nameLine
  rw [List.getLast?_concat]

/-- Claim C6 as amended: the manifest rewrite is idempotent as a function —
applying it twice with the same package name gives the same result as
applying it once (for package names without line feeds and manifests
without carriage returns) — but it does not in general return an
already-named manifest verbatim, since it re-emits the name line in
canonical unindented form. -/
theorem c6_theorem (toml_input package_name : String)
    (h1 : '\n' ∉ package_name.data) (h2 : '\x0d' ∉ toml_input.data) :
    rewrite_package_name (rewrite_package_name toml_input package_name) package_name
      = rewrite_package_name toml_input package_name := by
  unfold rewrite_package_name
  have hdata : (String.mk (joinNL (processLines package_name.data false
      (rlines toml_input.data)))).data
        = joinNL (processLines package_name.data false (rlines toml_input.data)) := rfl
  rw [hdata]
  have hO : ∀ l ∈ processLines package_name.data false (rlines toml_input.data),
      '\n' ∉ l ∧ l.getLast? ≠ some '\x0d' := by
    intro l hl
    rcases processLines_mem package_name.data _ false l hl with hmem | heq
    · constructor
      · exact rlinesAux_no_nl toml_input.data [] (by simp) l hmem
      · apply getLast?_ne_of_not_mem
        intro hr
        rcases rlinesAux_chars toml_input.data [] l hmem '\x0d' hr with h | h
        · simp at h
        · exact h2 h
    · subst heq
      refine ⟨nameLine_no_nl h1, ?_⟩
      rw [nameLine_getLast]
      simp
  rw [rlines_joinNL _ hO, processLines_idem]

/-- Witness for C6 as amended at a concrete manifest and name. -/
theorem c6_witness :
    '\n' ∉ ("pkg" : String).data
  ∧ '\x0d' ∉ ("[package]\n  name = \"old\"\n" : String).data
  ∧ rewrite_package_name
      (rewrite_package_name "[package]\n  name = \"old\"\n" "pkg") "pkg"
      = rewrite_package_name "[package]\n  name = \"old\"\n" "pkg" :=
  ⟨by decide, by decide,
   c6_theorem "[package]\n  name = \"old\"\n" "pkg" (by decide) (by decide)⟩
